import Mathlib

/-!
Shallow embedding of the `csrf` Go package (file `csrf.go`).

The package keeps a token store `map[string]int64` (token string to Unix
expiry seconds) guarded by a mutex, with three operations on it:
`DefaultTokenProvider.Get` (mint a UUID token and record its expiry),
`DefaultTokenProvider.Check` (validity lookup) and the background `gc`
sweep (delete expired entries).  The `CSRF.Validate` function reconciles
candidate token strings extracted from a request by a list of source
functions and then delegates the reconciled token to `Check`.

Modelling choices:
* Wall-clock time (`time.Now().Unix()`) is an explicit `Int` argument.
* The backing Go map is an association list `TokenMap` with look-up,
  overwriting insert, and filter; the mutex discipline means every
  operation sees and produces one consistent map value, so operations are
  pure functions from map to map.
* The entropy source (`uuid.NewRandom`) is an explicit `Except` argument:
  `Except.ok s` is a successfully generated UUID string, `Except.error e`
  a generation failure (which the code turns into a panic).
* Go panics are explicit constructors in result types.
* Source functions are pure functions of the request, so `Validate` is
  modelled on the list of candidate strings the sources return, in order.
-/

/-- Error values created by `errors.New` in `csrf.go`: `ErrInvalidToken`,
`errInconsistentTokenBetweenSources`, and a catch-all for other values of
Go type `error`.  Distinct constructors model distinct error values. -/
inductive GoError
  | invalidToken
  | inconsistentTokenBetweenSources
  | other (msg : String)
  deriving DecidableEq, Repr

/-- The store's backing map `map[string]int64`: token string to Unix
expiry time, keys unique. -/
abbrev TokenMap := List (String × Int)

/-- Go map read `m[k]` with its presence flag: `some v` when present. -/
def mapLookup (m : TokenMap) (k : String) : Option Int :=
  match m with
  | [] => none
  | (k', v) :: rest => if k' = k then some v else mapLookup rest k

/-- Go map write `m[k] = v`: overwrites the entry for `k` when present,
otherwise adds one. -/
def mapInsert (m : TokenMap) (k : String) (v : Int) : TokenMap :=
  match m with
  | [] => [(k, v)]
  | (k', v') :: rest => if k' = k then (k, v) :: rest else (k', v') :: mapInsert rest k v

/-- Result of `DefaultTokenProvider.Get`: either the Go panic raised on a
UUID generation failure, or a normal return of `(token, err)` together
with the store contents after the call. -/
inductive GetOutcome
  | panicked (msg : String)
  | returns (token : String) (err : Option GoError) (tokens : TokenMap)
  deriving DecidableEq, Repr

/-- Embedding of `DefaultTokenProvider.Get` (csrf.go lines 52-66): on a
UUID error it panics; otherwise it stores `now + ttl` under the fresh
UUID string (an unconditional map write) and returns `(token, nil)`. -/
def DefaultTokenProvider.Get (uuidResult : Except String String) (now ttl : Int)
    (tokens : TokenMap) : GetOutcome :=
  match uuidResult with
  | Except.error e => GetOutcome.panicked e
  | Except.ok uid => GetOutcome.returns uid none (mapInsert tokens uid (now + ttl))

/-- Embedding of `DefaultTokenProvider.Check` (csrf.go lines 68-78): looks
the token up; unless it is present with `now < expire_at` it returns
`ErrInvalidToken`.  The returned map is the store contents after the
call; the Go body contains no `delete`, so the map is returned as is on
every path. -/
def DefaultTokenProvider.Check (now : Int) (tokens : TokenMap) (token : String) :
    Option GoError × TokenMap :=
  match mapLookup tokens token with
  | none => (some GoError.invalidToken, tokens)
  | some expire_at =>
    if now < expire_at then (none, tokens) else (some GoError.invalidToken, tokens)

/-- Embedding of one pass of the `gc` sweep body (csrf.go lines 41-48):
under the lock, every entry with `!(current_time < expire_at)` is
deleted, i.e. exactly the entries with `now < expire_at` are kept. -/
def DefaultTokenProvider.gcPass (now : Int) (tokens : TokenMap) : TokenMap :=
  tokens.filter fun p => decide (now < p.2)

/-- Embedding of `CSRF.GetToken` (csrf.go lines 97-99): a plain delegation
to the provider's `Get`. -/
def CSRF.GetToken (uuidResult : Except String String) (now ttl : Int)
    (tokens : TokenMap) : GetOutcome :=
  DefaultTokenProvider.Get uuidResult now ttl tokens

/-- Embedding of the reconciliation loop inside `CSRF.Validate`
(csrf.go lines 132-142): `token` is the accumulator; while it is empty it
is replaced by the next candidate; once non-empty, any candidate
differing from it returns `errInconsistentTokenBetweenSources`. -/
def validateLoop : String → List String → Except GoError String
  | token, [] => Except.ok token
  | token, c :: rest =>
    if token = "" then validateLoop c rest
    else if token = c then validateLoop token rest
    else Except.error GoError.inconsistentTokenBetweenSources

/-- Control-flow outcome of `CSRF.Validate`: the zero-sources panic, an
error returned without consulting the provider, or delegation of the
reconciled token to the provider's `Check`. -/
inductive ValidateResult
  | panicked (msg : String)
  | fails (e : GoError)
  | checks (token : String)
  deriving DecidableEq, Repr

/-- Embedding of `CSRF.Validate` (csrf.go lines 127-150) up to the point
where it either returns on its own or hands the reconciled token to the
provider's `Check`. -/
def CSRF.Validate (candidates : List String) : ValidateResult :=
  if candidates = [] then ValidateResult.panicked "`sources` paramter is required"
  else
    match validateLoop "" candidates with
    | Except.error e => ValidateResult.fails e
    | Except.ok token =>
      if token = "" then ValidateResult.fails GoError.invalidToken
      else ValidateResult.checks token

/-- `CSRF.Validate` composed with `DefaultTokenProvider.Check`: the full
validation call against the default provider, returning `none` on panic
and otherwise the returned error together with the store contents after
the call. -/
def CSRF.ValidateRun (now : Int) (tokens : TokenMap) (candidates : List String) :
    Option (Option GoError × TokenMap) :=
  match CSRF.Validate candidates with
  | ValidateResult.panicked _ => none
  | ValidateResult.fails e => some (some e, tokens)
  | ValidateResult.checks t => some (DefaultTokenProvider.Check now tokens t)

/-- An inbound request, restricted to the channels the source functions
read: the context value under the package's csrf key (`none` when absent,
as `context.Value` then returns nil), the header map and the decoded
form fields. -/
structure Request where
  ctxToken : Option String
  headers : List (String × String)
  form : List (String × String)
  deriving DecidableEq, Repr

/-- Go's `Header.Get` / `FormValue` behaviour on our association lists:
the stored value, or the empty string when the key is absent. -/
def assocGet (l : List (String × String)) (k : String) : String :=
  match l with
  | [] => ""
  | (k', v) :: rest => if k' = k then v else assocGet rest k

/-- Result of a Go expression that may panic. -/
inductive GoResult (α : Type)
  | panicked (msg : String)
  | ok (val : α)
  deriving DecidableEq, Repr

/-- Embedding of `ContextTokenSource` (csrf.go lines 107-109): the forced
type assertion `r.Context().Value(csrf_token_context_key(0)).(string)`
panics when the context carries no value for the key (the assertion is
the single-result form, which panics on a nil interface). -/
def ContextTokenSource (r : Request) : GoResult String :=
  match r.ctxToken with
  | none => GoResult.panicked "interface conversion: interface is nil, not string"
  | some s => GoResult.ok s

/-- Embedding of `HeaderTokenSource` (csrf.go lines 112-114). -/
def HeaderTokenSource (r : Request) : String :=
  assocGet r.headers "X-Csrf-Token"

/-- Embedding of `FormTokenSource` (csrf.go lines 117-121). -/
def FormTokenSource (field : String) (r : Request) : String :=
  assocGet r.form field

/-! ## Helper lemmas -/

/-- Leading all-empty candidates leave the reconciliation accumulator
empty. -/
theorem validateLoop_append_empty (pre : List String) (h : ∀ x ∈ pre, x = "")
    (rest : List String) : validateLoop "" (pre ++ rest) = validateLoop "" rest := by
  induction pre with
  | nil => rfl
  | cons a t ih =>
    have ha : a = "" := h a (List.mem_cons_self a t)
    have ht : ∀ x ∈ t, x = "" := fun x hx => h x (List.mem_cons_of_mem a hx)
    calc validateLoop "" ((a :: t) ++ rest)
        = validateLoop a (t ++ rest) := by simp [validateLoop]
      _ = validateLoop "" (t ++ rest) := by rw [ha]
      _ = validateLoop "" rest := ih ht

/-- Once the accumulator holds a non-empty reference value, any later
candidate differing from it (empty or not) makes the loop return the
inconsistency error. -/
theorem validateLoop_mismatch (v : String) (hv : v ≠ "") :
    ∀ post : List String, (∃ x ∈ post, x ≠ v) →
      validateLoop v post = Except.error GoError.inconsistentTokenBetweenSources := by
  intro post
  induction post with
  | nil =>
    rintro ⟨x, hx, -⟩
    exact absurd hx (List.not_mem_nil x)
  | cons c rest ih =>
    rintro ⟨x, hx, hxv⟩
    by_cases hc : v = c
    · have hrest : ∃ y ∈ rest, y ≠ v := by
        rcases List.mem_cons.mp hx with h1 | h2
        · exact absurd (h1.trans hc.symm) hxv
        · exact ⟨x, h2, hxv⟩
      simp only [validateLoop, if_neg hv, if_pos hc]
      exact ih hrest
    · simp only [validateLoop, if_neg hv, if_neg hc]

/-- When every candidate is empty, the loop ends with the accumulator
still empty. -/
theorem validateLoop_all_empty (candidates : List String)
    (h : ∀ x ∈ candidates, x = "") : validateLoop "" candidates = Except.ok "" := by
  have := validateLoop_append_empty candidates h []
  simpa using this

/-! ## Claim theorems -/

/-- C1: the claim says a successful `Check` removes the token's entry so
that a second `Check` on the same token fails.  Evaluating the code at
the failing input (store holding token "t" with expiry 100, call time 0):
the first `Check` succeeds but leaves the entry in place, and a second
`Check` on the same token succeeds again, contradicting the interface's
own documentation that `Check` "must immediately delete the token if
found". -/
theorem check_does_not_consume :
    DefaultTokenProvider.Check 0 [("t", (100 : Int))] "t" = (none, [("t", 100)]) ∧
    DefaultTokenProvider.Check 0
        (DefaultTokenProvider.Check 0 [("t", (100 : Int))] "t").2 "t" =
      (none, [("t", (100 : Int))]) := by
  constructor
  · rfl
  · rfl

/-- C3: evaluating each built-in source at a request whose channels carry
no token.  `HeaderTokenSource` and `FormTokenSource` return the empty
string as the claim states, but `ContextTokenSource` panics on the failed
type assertion instead of returning the empty string its own doc comment
promises. -/
theorem contextTokenSource_panics_on_absent :
    ContextTokenSource (Request.mk none [] []) =
      GoResult.panicked "interface conversion: interface is nil, not string" ∧
    HeaderTokenSource (Request.mk none [] []) = "" ∧
    FormTokenSource "csrf_token" (Request.mk none [] []) = "" := by
  exact ⟨rfl, rfl, rfl⟩

/-- C4: for a stored token whose expiry is at or before the call time,
`Check` returns `ErrInvalidToken` and returns the store unchanged, even
though the entry is still present (the sweep has not removed it). -/
theorem check_expired_invalid_unchanged (now : Int) (tokens : TokenMap)
    (token : String) (e : Int) (hfound : mapLookup tokens token = some e)
    (hexp : e ≤ now) :
    DefaultTokenProvider.Check now tokens token =
      (some GoError.invalidToken, tokens) := by
  have hstep : DefaultTokenProvider.Check now tokens token =
      if now < e then (none, tokens) else (some GoError.invalidToken, tokens) := by
    unfold DefaultTokenProvider.Check
    rw [hfound]
  rw [hstep, if_neg (by omega)]

/-- C4 witness: store holding "t" with expiry 5, checked at time 10. -/
theorem check_expired_invalid_unchanged_witness :
    DefaultTokenProvider.Check 10 [("t", (5 : Int))] "t" =
      (some GoError.invalidToken, [("t", (5 : Int))]) :=
  check_expired_invalid_unchanged 10 [("t", 5)] "t" 5 (by decide) (by decide)

/-- C5: when every source yields the empty string (and at least one
source is supplied), `Validate` returns `ErrInvalidToken` without
delegating to the provider's `Check`, and the composed run leaves the
store exactly as it was. -/
theorem validate_all_empty_short_circuit (candidates : List String)
    (hne : candidates ≠ []) (hall : ∀ x ∈ candidates, x = "")
    (now : Int) (tokens : TokenMap) :
    CSRF.Validate candidates = ValidateResult.fails GoError.invalidToken ∧
    CSRF.ValidateRun now tokens candidates =
      some (some GoError.invalidToken, tokens) := by
  have hloop := validateLoop_all_empty candidates hall
  have hval : CSRF.Validate candidates = ValidateResult.fails GoError.invalidToken := by
    unfold CSRF.Validate
    rw [if_neg hne, hloop]
    simp
  refine ⟨hval, ?_⟩
  unfold CSRF.ValidateRun
  rw [hval]

/-- C5 witness: two sources, both returning the empty string, at time 0
on a store holding one token. -/
theorem validate_all_empty_short_circuit_witness :
    CSRF.Validate ["", ""] = ValidateResult.fails GoError.invalidToken ∧
    CSRF.ValidateRun 0 [("t", (5 : Int))] ["", ""] =
      some (some GoError.invalidToken, [("t", (5 : Int))]) :=
  validate_all_empty_short_circuit ["", ""] (by decide) (by decide) 0 [("t", 5)]

/-- C2 counterexample: with sources yielding "abc", "", "abc", `Validate`
does not delegate "abc" to `Check`; the loop's bare inequality test
treats the middle empty candidate as a mismatch, so the call returns the
inconsistency error. -/
theorem validate_empty_candidate_cex :
    CSRF.Validate ["abc", "", "abc"] =
      ValidateResult.fails GoError.inconsistentTokenBetweenSources ∧
    CSRF.Validate ["abc", "", "abc"] ≠ ValidateResult.checks "abc" := by
  constructor
  · rfl
  · decide

/-- C2 amended: after the first non-empty candidate v (preceded only by
empty candidates), a later source returning the empty string is treated
as a mismatch, not skipped: `Validate` fails with the inconsistency
error instead of delegating v to the store's `Check`. -/
theorem validate_later_empty_is_mismatch (pre : List String) (v : String)
    (post : List String) (hpre : ∀ x ∈ pre, x = "") (hv : v ≠ "") :
    CSRF.Validate (pre ++ v :: "" :: post) =
      ValidateResult.fails GoError.inconsistentTokenBetweenSources := by
  have hne : pre ++ v :: "" :: post ≠ [] := by
    intro h
    exact absurd (List.append_eq_nil.mp h).2 (List.cons_ne_nil _ _)
  have hloop : validateLoop "" (pre ++ v :: "" :: post) =
      Except.error GoError.inconsistentTokenBetweenSources := by
    rw [validateLoop_append_empty pre hpre]
    have h1 : validateLoop "" (v :: "" :: post) = validateLoop v ("" :: post) := by
      simp [validateLoop]
    rw [h1]
    exact validateLoop_mismatch v hv ("" :: post)
      ⟨"", List.mem_cons_self _ _, fun h => hv h.symm⟩
  unfold CSRF.Validate
  rw [if_neg hne, hloop]

/-- C2 amended witness: the concrete list ["abc", "", "abc"]. -/
theorem validate_later_empty_is_mismatch_witness :
    CSRF.Validate ([] ++ "abc" :: "" :: ["abc"]) =
      ValidateResult.fails GoError.inconsistentTokenBetweenSources :=
  validate_later_empty_is_mismatch [] "abc" ["abc"] (by decide) (by decide)

/-- C6: when the first non-empty candidate is v and some later candidate
c is non-empty and differs from v, `Validate` returns the inconsistency
error, an error value distinct from `ErrInvalidToken`, without delegating
any token to the provider's `Check`: the composed run returns that error
with the store untouched. -/
theorem validate_inconsistent_sources (pre : List String) (v : String)
    (post : List String) (c : String) (hpre : ∀ x ∈ pre, x = "") (hv : v ≠ "")
    (hc : c ∈ post) (hcne : c ≠ "") (hcv : c ≠ v) :
    CSRF.Validate (pre ++ v :: post) =
      ValidateResult.fails GoError.inconsistentTokenBetweenSources ∧
    GoError.inconsistentTokenBetweenSources ≠ GoError.invalidToken ∧
    (∀ now tokens, CSRF.ValidateRun now tokens (pre ++ v :: post) =
      some (some GoError.inconsistentTokenBetweenSources, tokens)) := by
  have hne : pre ++ v :: post ≠ [] := by
    intro h
    exact absurd (List.append_eq_nil.mp h).2 (List.cons_ne_nil _ _)
  have hloop : validateLoop "" (pre ++ v :: post) =
      Except.error GoError.inconsistentTokenBetweenSources := by
    rw [validateLoop_append_empty pre hpre]
    have h1 : validateLoop "" (v :: post) = validateLoop v post := by
      simp [validateLoop]
    rw [h1]
    exact validateLoop_mismatch v hv post ⟨c, hc, hcv⟩
  have hval : CSRF.Validate (pre ++ v :: post) =
      ValidateResult.fails GoError.inconsistentTokenBetweenSources := by
    unfold CSRF.Validate
    rw [if_neg hne, hloop]
  refine ⟨hval, by decide, fun now tokens => ?_⟩
  unfold CSRF.ValidateRun
  rw [hval]

/-- C6 witness: sources yielding ["abc", "xyz"]. -/
theorem validate_inconsistent_sources_witness :
    CSRF.Validate ([] ++ "abc" :: ["xyz"]) =
      ValidateResult.fails GoError.inconsistentTokenBetweenSources ∧
    GoError.inconsistentTokenBetweenSources ≠ GoError.invalidToken ∧
    (∀ now tokens, CSRF.ValidateRun now tokens ([] ++ "abc" :: ["xyz"]) =
      some (some GoError.inconsistentTokenBetweenSources, tokens)) :=
  validate_inconsistent_sources [] "abc" ["xyz"] "xyz" (by decide) (by decide)
    (List.mem_cons_self _ _) (by decide) (by decide)

/-- C7: one pass of the gc sweep keeps exactly the entries whose expiry
is still in the future: an entry survives the pass exactly when it was
present and unexpired, and once every entry has expired the pass leaves
the map with zero entries. -/
theorem gcPass_removes_exactly_expired (now : Int) (tokens : TokenMap) :
    (∀ p : String × Int,
      p ∈ DefaultTokenProvider.gcPass now tokens ↔ (p ∈ tokens ∧ now < p.2)) ∧
    ((∀ q ∈ tokens, q.2 ≤ now) →
      (DefaultTokenProvider.gcPass now tokens).length = 0) := by
  constructor
  · intro p
    simp [DefaultTokenProvider.gcPass, List.mem_filter]
  · intro hall
    rw [List.length_eq_zero]
    apply List.filter_eq_nil.mpr
    intro q hq
    have := hall q hq
    simp only [decide_eq_true_eq]
    omega

/-- C7 witness: a sweep at time 10 over two expired entries. -/
theorem gcPass_removes_exactly_expired_witness :
    (∀ p : String × Int,
      p ∈ DefaultTokenProvider.gcPass 10 [("a", 5), ("b", 10)] ↔
        (p ∈ [("a", (5 : Int)), ("b", 10)] ∧ (10 : Int) < p.2)) ∧
    ((∀ q ∈ [("a", (5 : Int)), ("b", 10)], q.2 ≤ 10) →
      (DefaultTokenProvider.gcPass 10 [("a", 5), ("b", 10)]).length = 0) :=
  gcPass_removes_exactly_expired 10 [("a", 5), ("b", 10)]

/-- C9: `Validate` panics exactly when the sources list is empty: the
empty call hits the explicit panic with the source's message, and a call
with at least one source never reaches the panic branch. -/
theorem validate_zero_sources_panics (candidates : List String) :
    CSRF.Validate [] = ValidateResult.panicked "`sources` paramter is required" ∧
    ((∃ msg, CSRF.Validate candidates = ValidateResult.panicked msg) ↔
      candidates = []) := by
  refine ⟨rfl, ?_, ?_⟩
  · rintro ⟨msg, hmsg⟩
    by_contra hne
    unfold CSRF.Validate at hmsg
    rw [if_neg hne] at hmsg
    cases hloop : validateLoop "" candidates with
    | error e => rw [hloop] at hmsg; cases hmsg
    | ok t =>
      rw [hloop] at hmsg
      by_cases ht : t = "" <;> simp [ht] at hmsg
  · intro h
    exact ⟨"`sources` paramter is required", by rw [h]; rfl⟩

/-- C9 witness: the empty sources list itself. -/
theorem validate_zero_sources_panics_witness :
    CSRF.Validate [] = ValidateResult.panicked "`sources` paramter is required" ∧
    ((∃ msg, CSRF.Validate [] = ValidateResult.panicked msg) ↔ ([] : List String) = []) :=
  validate_zero_sources_panics []

/-- Writing a key yields a map in which that key reads back the written
value. -/
theorem mapLookup_mapInsert_self (m : TokenMap) (k : String) (v : Int) :
    mapLookup (mapInsert m k v) k = some v := by
  induction m with
  | nil => simp [mapInsert, mapLookup]
  | cons p rest ih =>
    obtain ⟨a, b⟩ := p
    by_cases h : a = k
    · simp [mapInsert, mapLookup, h]
    · simp [mapInsert, mapLookup, h, ih]

/-- Writing a key leaves every other key's value unchanged. -/
theorem mapLookup_mapInsert_other (m : TokenMap) (k j : String) (v : Int)
    (h : j ≠ k) : mapLookup (mapInsert m k v) j = mapLookup m j := by
  have hk : k ≠ j := Ne.symm h
  induction m with
  | nil => simp [mapInsert, mapLookup, hk]
  | cons p rest ih =>
    obtain ⟨a, b⟩ := p
    by_cases ha : a = k
    · subst ha
      simp [mapInsert, mapLookup, hk]
    · by_cases haj : a = j
      · simp [mapInsert, mapLookup, ha, haj, h]
      · simp [mapInsert, mapLookup, ha, haj, ih]

/-- Writing an absent key grows the map by exactly one entry. -/
theorem mapInsert_length_fresh (m : TokenMap) (k : String) (v : Int)
    (h : mapLookup m k = none) : (mapInsert m k v).length = m.length + 1 := by
  induction m with
  | nil => rfl
  | cons p rest ih =>
    obtain ⟨a, b⟩ := p
    by_cases ha : a = k
    · simp [mapLookup, ha] at h
    · simp only [mapLookup, if_neg ha] at h
      simp [mapInsert, ha, ih h]

/-- C8 counterexample: `Get` performs no presence check.  With the token
"t" already stored (expiry 50) and the entropy source producing the
colliding string "t", `Get` returns "t" — a token already present in the
store at the moment of insertion — and overwrites the existing entry
with the new expiry. -/
theorem get_collision_overwrites_cex :
    mapLookup [("t", (50 : Int))] "t" = some 50 ∧
    DefaultTokenProvider.Get (Except.ok "t") 0 10 [("t", (50 : Int))] =
      GetOutcome.returns "t" none [("t", 10)] := by
  constructor
  · decide
  · decide

/-- C8 amended: `Get` stores whatever string the entropy source yields,
with no presence check; under correct entropy behaviour — the generated
UUID is not already a key — the returned token is new to the store, it
reads back with expiry `now + ttl`, every other entry is untouched, and
the entry count grows by exactly one (no overwrite). -/
theorem get_fresh_uuid_spec (uuid : String) (now ttl : Int) (tokens : TokenMap)
    (hfresh : mapLookup tokens uuid = none) :
    DefaultTokenProvider.Get (Except.ok uuid) now ttl tokens =
      GetOutcome.returns uuid none (mapInsert tokens uuid (now + ttl)) ∧
    mapLookup (mapInsert tokens uuid (now + ttl)) uuid = some (now + ttl) ∧
    (∀ j, j ≠ uuid →
      mapLookup (mapInsert tokens uuid (now + ttl)) j = mapLookup tokens j) ∧
    (mapInsert tokens uuid (now + ttl)).length = tokens.length + 1 :=
  ⟨rfl, mapLookup_mapInsert_self _ _ _,
    fun j hj => mapLookup_mapInsert_other _ _ _ _ hj,
    mapInsert_length_fresh _ _ _ hfresh⟩

/-- C8 amended witness: the fresh UUID "u" inserted over a store holding
"t". -/
theorem get_fresh_uuid_spec_witness :
    DefaultTokenProvider.Get (Except.ok "u") 0 10 [("t", (50 : Int))] =
      GetOutcome.returns "u" none (mapInsert [("t", (50 : Int))] "u" (0 + 10)) ∧
    mapLookup (mapInsert [("t", (50 : Int))] "u" (0 + 10)) "u" = some (0 + 10) ∧
    (∀ j, j ≠ "u" →
      mapLookup (mapInsert [("t", (50 : Int))] "u" (0 + 10)) j =
        mapLookup [("t", (50 : Int))] j) ∧
    (mapInsert [("t", (50 : Int))] "u" (0 + 10)).length =
      [("t", (50 : Int))].length + 1 :=
  get_fresh_uuid_spec "u" 0 10 [("t", 50)] (by decide)

/-- C10: whenever `Get` (and hence `CSRF.GetToken`, a plain delegation)
returns at all, its error result is nil, because the only failure — a
UUID generation error — is turned into a panic instead of a returned
error. -/
theorem getToken_error_always_nil (uuidResult : Except String String)
    (now ttl : Int) (tokens : TokenMap) :
    (∀ token err tokens',
      CSRF.GetToken uuidResult now ttl tokens =
        GetOutcome.returns token err tokens' → err = none) ∧
    (∀ e, uuidResult = Except.error e →
      CSRF.GetToken uuidResult now ttl tokens = GetOutcome.panicked e) := by
  constructor
  · intro token err tokens' h
    cases uuidResult with
    | error e => simp [CSRF.GetToken, DefaultTokenProvider.Get] at h
    | ok u =>
      simp [CSRF.GetToken, DefaultTokenProvider.Get] at h
      exact h.2.1.symm
  · rintro e rfl
    rfl

/-- C10 witness: a successful generation at a concrete input. -/
theorem getToken_error_always_nil_witness :
    (∀ token err tokens',
      CSRF.GetToken (Except.ok "u") 0 10 [] =
        GetOutcome.returns token err tokens' → err = none) ∧
    (∀ e, Except.ok "u" = Except.error e →
      CSRF.GetToken (Except.ok "u") 0 10 [] = GetOutcome.panicked e) :=
  getToken_error_always_nil (Except.ok "u") 0 10 []
